import Mathlib

/-!
Verification of the resource-query/result abstraction layer of the
edwh-ghost client library, shallowly embedded from the Python source
(ghost/abs_resources.py, ghost/client.py, ghost/results.py).
-/

namespace Ghost

/-! ### Association lists modelling Python dicts -/

/-- Lookup in an association list, modelling Python dict lookup / `dict.get`. -/
def getKey {α : Type} : List (String × α) → String → Option α
  | [], _ => none
  | (k, v) :: rest, key => if k = key then some v else getKey rest key

/-- Update-or-append in an association list, modelling Python assignment
`d[key] = value`, which overwrites in place (keeping insertion order) or
appends a new key at the end. -/
def setKey {α : Type} : List (String × α) → String → α → List (String × α)
  | [], key, value => [(key, value)]
  | (k, v) :: rest, key, value =>
      if k = key then (key, value) :: rest else (k, v) :: setKey rest key value

theorem getKey_setKey_self {α : Type} (l : List (String × α)) (k : String) (v : α) :
    getKey (setKey l k v) k = some v := by
  induction l with
  | nil => simp [getKey, setKey]
  | cons hd tl ih =>
      rcases hd with ⟨k1, v1⟩
      by_cases h : k1 = k
      · simp [setKey, getKey, h]
      · simp [setKey, getKey, h, ih]

theorem getKey_setKey_ne {α : Type} (l : List (String × α)) (k k' : String) (v : α)
    (h : k' ≠ k) : getKey (setKey l k v) k' = getKey l k' := by
  have hne : ¬(k = k') := fun hh => h hh.symm
  induction l with
  | nil => simp [getKey, setKey, hne]
  | cons hd tl ih =>
      rcases hd with ⟨k1, v1⟩
      by_cases h1 : k1 = k
      · subst h1
        simp [setKey, getKey, hne]
      · simp only [setKey, if_neg h1]
        by_cases h2 : k1 = k'
        · simp [getKey, h2]
        · simp [getKey, h2, ih]

/-! ### Filter translator (`GhostResource._list_join`, `_filters_to_ghost`,
`_create_args` in abs_resources.py) -/

/-- Value of one entry of a filter mapping as passed from Python: a plain
string, a list of strings, or a nested mapping (Python dict). -/
inductive FilterValue where
  | str : String → FilterValue
  | list : List String → FilterValue
  | nested : List (String × FilterValue) → FilterValue

/-- Parenthesis style accepted by `_list_join` (default is square;
the empty string selects no parentheses). -/
inductive Paren where
  | nothing : Paren
  | square : Paren
  | round : Paren
deriving DecidableEq, Repr

/-- Mirrors `GhostResource._list_join`: join a list with commas and wrap it
in the chosen parentheses. -/
def list_join (value : List String) (paren : Paren) : String :=
  let joined := String.intercalate "," value
  match paren with
  | .nothing => joined
  | .square => "[" ++ joined ++ "]"
  | .round => "(" ++ joined ++ ")"

/-- Mirrors `is_iterable` from abs_resources.py: Python lists and dicts are
Iterable; str is explicitly excluded. -/
def is_iterable : FilterValue → Bool
  | .str _ => false
  | .list _ => true
  | .nested _ => true

/-- What Python comma-join iterates over: a list yields its elements, a
dict yields its KEYS (not its values), a string yields its characters
(the string case is unreachable in `_filters_to_ghost`, which only joins
values passing `is_iterable`). -/
def iterElems : FilterValue → List String
  | .str s => s.toList.map toString
  | .list l => l
  | .nested m => m.map Prod.fst

/-- Python str() of a non-iterable filter value as interpolated by
`_filters_to_ghost`; only the plain-string case is reachable there since
lists and dicts take the `is_iterable` branch. -/
def pyStr : FilterValue → String
  | .str s => s
  | .list _ => ""
  | .nested _ => ""

/-- Mirrors `GhostResource._filters_to_ghost`: for each key/value pair,
iterable values are comma-joined and wrapped in square brackets by
`_list_join`; the resulting key:value fragments are joined with plus. -/
def filters_to_ghost (filters : List (String × FilterValue)) : String :=
  let ghost_filters := filters.map fun kv =>
    kv.1 ++ ":" ++
      (if is_iterable kv.2 then list_join (iterElems kv.2) Paren.square else pyStr kv.2)
  String.intercalate "+" ghost_filters

/-- Modelled from the spec (section 4.1), NOT from the source: the
translation contract as the specification words it, where a nested mapping
value is recursively translated with the same rules. Used only to compare
the specified behaviour against `filters_to_ghost`. -/
def translate_spec : List (String × FilterValue) → String
  | [] => ""
  | [(k, v)] =>
      k ++ ":" ++
        (match v with
          | .str s => s
          | .list l => "[" ++ String.intercalate "," l ++ "]"
          | .nested m => translate_spec m)
  | (k, v) :: rest =>
      (k ++ ":" ++
        (match v with
          | .str s => s
          | .list l => "[" ++ String.intercalate "," l ++ "]"
          | .nested m => translate_spec m)) ++ "+" ++ translate_spec rest

/-- Argument value as handled by `GhostResource._create_args`: Python None,
a string, an int, a list, or a dict (which was passed to the filter
translator). -/
inductive ArgValue where
  | none : ArgValue
  | str : String → ArgValue
  | num : Nat → ArgValue
  | list : List String → ArgValue
  | dict : List (String × FilterValue) → ArgValue

/-- Mirrors `GhostResource._create_args` (after its pop of the locals entry
for self): None values are skipped, dict values go through
`_filters_to_ghost`, other iterables are comma-joined without brackets,
and remaining values are kept. -/
def create_args (d : List (String × ArgValue)) : List (String × String) :=
  d.foldl
    (fun args kv =>
      match kv.2 with
      | .none => args
      | .dict m => args ++ [(kv.1, filters_to_ghost m)]
      | .list l => args ++ [(kv.1, list_join l Paren.nothing)]
      | .str s => args ++ [(kv.1, s)]
      | .num n => args ++ [(kv.1, toString n)])
    []

/-- Predicate for claim C1: the value is a plain string or a list of
strings (no nested mapping). -/
def isStrOrList : FilterValue → Bool
  | .str _ => true
  | .list _ => true
  | .nested _ => false

/-- Fragment that claim C1 asserts for one key/value pair: a plain string
value stays as is, a list value is comma-joined and wrapped in square
brackets. -/
def claimFragment (kv : String × FilterValue) : String :=
  match kv.2 with
  | .str s => kv.1 ++ ":" ++ s
  | .list l => kv.1 ++ ":" ++ ("[" ++ String.intercalate "," l ++ "]")
  | .nested _ => ""

/-- Claim C1: for every filter mapping whose values are strings or lists of
strings, the translator produces one key:value fragment per key in the
mapping's order, where a list value is comma-joined and wrapped in square
brackets, and all fragments are joined with plus. -/
theorem filters_to_ghost_fragments (filters : List (String × FilterValue))
    (h : ∀ kv ∈ filters, isStrOrList kv.2 = true) :
    filters_to_ghost filters = String.intercalate "+" (filters.map claimFragment) := by
  show String.intercalate "+"
      (filters.map fun kv =>
        kv.1 ++ ":" ++
          (if is_iterable kv.2 then list_join (iterElems kv.2) Paren.square else pyStr kv.2))
    = String.intercalate "+" (filters.map claimFragment)
  congr 1
  apply List.map_congr_left
  intro kv hkv
  have hv := h kv hkv
  rcases kv with ⟨k, v⟩
  cases v with
  | str s => rfl
  | list l => rfl
  | nested m => simp [isStrOrList] at hv

/-- Witness for claim C1 at the worked example of the spec. -/
theorem filters_to_ghost_fragments_witness :
    filters_to_ghost
        [("tag", FilterValue.list ["a", "b"]), ("status", FilterValue.str "draft")]
      = "tag:[a,b]+status:draft" := by
  have h := filters_to_ghost_fragments
    [("tag", FilterValue.list ["a", "b"]), ("status", FilterValue.str "draft")]
    (by decide)
  rw [h]
  rfl

/-- Counterexample to claim C2 as stated: on the mapping where key a holds
the nested mapping from b to c, the source translator emits only the nested
mapping's keys in brackets (a:[b]), while recursive translation per the
spec would yield a:b:c. -/
theorem nested_filter_counterexample :
    filters_to_ghost [("a", FilterValue.nested [("b", FilterValue.str "c")])] = "a:[b]" ∧
    translate_spec [("a", FilterValue.nested [("b", FilterValue.str "c")])] = "a:b:c" ∧
    ("a:[b]" : String) ≠ "a:b:c" := by
  refine ⟨rfl, ?_, by decide⟩
  simp only [translate_spec]
  decide

/-- Claim C2 (amended): `_filters_to_ghost` does not recurse into a nested
mapping value; being iterable, the nested mapping is comma-joined over its
KEYS and wrapped in square brackets, discarding its values. One level of
mapping translation happens instead in `_create_args`, where a dict-valued
argument is translated once via `_filters_to_ghost`. -/
theorem nested_filter_translation (k : String) (m : List (String × FilterValue)) :
    filters_to_ghost [(k, FilterValue.nested m)]
      = k ++ ":" ++ ("[" ++ String.intercalate "," (m.map Prod.fst) ++ "]") ∧
    create_args [(k, ArgValue.dict m)] = [(k, filters_to_ghost m)] :=
  ⟨rfl, rfl⟩

/-! ### Request dispatcher retry loop (`GhostClient._interact` in client.py) -/

/-- Bound on the retry loop of `_interact` (client.py). -/
def MAX_ERROR_LIMIT : Nat := 3

/-- Observable action taken by the `_interact` retry loop: sending the HTTP
request, regenerating the auth headers, or sleeping five seconds. -/
inductive Event where
  | send : Event
  | regen : Event
  | sleep5 : Event
deriving DecidableEq, Repr

/-- Mirrors the while loop of `GhostClient._interact`. The environment is a
function from attempt index to the HTTP status code of that attempt's
response. The result records the trace of actions and either the status
code returned to the caller, or none for the IOError raised once the loop
exhausts `MAX_ERROR_LIMIT`. On a 401 with no prior error, headers are
regenerated and the request retried at once; on a 401 after a prior error
the loop sleeps five seconds before regenerating; any other status is
returned immediately. -/
def interactLoop (statusOf : Nat → Nat) (errorCount attempt : Nat) :
    List Event × Option Nat :=
  if errorCount < MAX_ERROR_LIMIT then
    let s := statusOf attempt
    if s = 401 ∧ errorCount = 0 then
      let r := interactLoop statusOf (errorCount + 1) (attempt + 1)
      (Event.send :: Event.regen :: r.1, r.2)
    else if s = 401 then
      let r := interactLoop statusOf (errorCount + 1) (attempt + 1)
      (Event.send :: Event.sleep5 :: Event.regen :: r.1, r.2)
    else
      ([Event.send], some s)
  else
    ([], none)
termination_by MAX_ERROR_LIMIT - errorCount

/-- Entry point of the retry loop: error count starts at zero, first
attempt is attempt zero. -/
def interact (statusOf : Nat → Nat) : List Event × Option Nat :=
  interactLoop statusOf 0 0

/-- Claim C3: a first 401 regenerates headers and retries immediately; a
second consecutive 401 sleeps five seconds, regenerates and retries; after
a third consecutive 401 the loop stops with the transport IOError (none)
having sent exactly three requests; any non-401 response is returned to
the caller without entering the retry machinery. -/
theorem interact_retry_protocol (statusOf : Nat → Nat) :
    (statusOf 0 ≠ 401 →
      interact statusOf = ([Event.send], some (statusOf 0))) ∧
    (statusOf 0 = 401 → statusOf 1 ≠ 401 →
      interact statusOf
        = ([Event.send, Event.regen, Event.send], some (statusOf 1))) ∧
    (statusOf 0 = 401 → statusOf 1 = 401 → statusOf 2 ≠ 401 →
      interact statusOf
        = ([Event.send, Event.regen, Event.send, Event.sleep5, Event.regen,
            Event.send], some (statusOf 2))) ∧
    (statusOf 0 = 401 → statusOf 1 = 401 → statusOf 2 = 401 →
      interact statusOf
        = ([Event.send, Event.regen, Event.send, Event.sleep5, Event.regen,
            Event.send, Event.sleep5, Event.regen], none)) := by
  refine ⟨?_, ?_, ?_, ?_⟩
  · intro h0
    rw [interact, interactLoop]
    simp [MAX_ERROR_LIMIT, h0]
  · intro h0 h1
    rw [interact, interactLoop, interactLoop]
    simp [MAX_ERROR_LIMIT, h0, h1]
  · intro h0 h1 h2
    rw [interact, interactLoop, interactLoop, interactLoop]
    simp [MAX_ERROR_LIMIT, h0, h1, h2]
  · intro h0 h1 h2
    rw [interact, interactLoop, interactLoop, interactLoop, interactLoop]
    simp [MAX_ERROR_LIMIT, h0, h1, h2]

/-- Witness for claim C3: concrete environments exercising all four
branches of the retry protocol. -/
theorem interact_retry_protocol_witness :
    interact (fun _ => 200) = ([Event.send], some 200) ∧
    interact (fun n => if n = 0 then 401 else 200)
      = ([Event.send, Event.regen, Event.send], some 200) ∧
    interact (fun n => if n ≤ 1 then 401 else 200)
      = ([Event.send, Event.regen, Event.send, Event.sleep5, Event.regen,
          Event.send], some 200) ∧
    interact (fun _ => 401)
      = ([Event.send, Event.regen, Event.send, Event.sleep5, Event.regen,
          Event.send, Event.sleep5, Event.regen], none) := by
  refine ⟨?_, ?_, ?_, ?_⟩
  · exact (interact_retry_protocol (fun _ => 200)).1 (by decide)
  · exact (interact_retry_protocol (fun n => if n = 0 then 401 else 200)).2.1 rfl (by decide)
  · exact (interact_retry_protocol
      (fun n => if n ≤ 1 then 401 else 200)).2.2.1 rfl rfl (by decide)
  · exact (interact_retry_protocol (fun _ => 401)).2.2.2 rfl rfl rfl

/-! ### JSON values and `GhostAdminResource.create` (abs_resources.py) -/

/-- JSON-like value as handled by the Python code. -/
inductive JVal where
  | null : JVal
  | str : String → JVal
  | num : Int → JVal
  | bool : Bool → JVal
  | arr : List JVal → JVal
  | obj : List (String × JVal) → JVal

/-- Python truthiness of a JSON-like value. -/
def truthy : JVal → Bool
  | .null => false
  | .str s => !s.isEmpty
  | .num n => n != 0
  | .bool b => b
  | .arr l => !l.isEmpty
  | .obj m => !m.isEmpty

/-- Item passed to create: a Python dict of fields. -/
abbrev Item := List (String × JVal)

/-- One POST request issued by `_create_one`: query params plus the JSON
envelope mapping the resource name to a one-item list. -/
structure PostRequest where
  params : List (String × String)
  body : List (String × JVal)

/-- Outcome of `GhostAdminResource.create`: the ValueError for ambiguous
arguments, the NotImplementedError raised by `_transform_markdown`, or the
list of POST requests issued. -/
inductive CreateOutcome where
  | usageError : CreateOutcome
  | notImplementedError : CreateOutcome
  | posts : List PostRequest → CreateOutcome

/-- Mirrors `GhostAdminResource._create_one`: `_transform_markdown` raises
if the item carries a truthy markdown field; otherwise the item is POSTed
inside the one-item envelope, with the source=html param when the item
carries a truthy html field. -/
def create_one (resource : String) (item : Item) : Except Unit PostRequest :=
  if truthy ((getKey item "markdown").getD JVal.null) then
    Except.error ()
  else
    let params := if truthy ((getKey item "html").getD JVal.null) then
      [("source", "html")] else []
    Except.ok ⟨params, [(resource, JVal.arr [JVal.obj item])]⟩

/-- Mirrors `GhostAdminResource.create`: with both positional items and
keyword fields a ValueError is raised; with positional items each is
created individually; otherwise the keyword fields form one item. -/
def create (resource : String) (a : List Item) (kw : Item) : CreateOutcome :=
  if !a.isEmpty && !kw.isEmpty then
    CreateOutcome.usageError
  else if !a.isEmpty then
    match a.mapM (create_one resource) with
    | Except.ok reqs => CreateOutcome.posts reqs
    | Except.error _ => CreateOutcome.notImplementedError
  else
    match create_one resource kw with
    | Except.ok req => CreateOutcome.posts [req]
    | Except.error _ => CreateOutcome.notImplementedError

/-- Counterexample to claim C4 as stated: a call supplying neither
positional items nor keyword fields is not rejected with a usage error;
it proceeds and issues one POST carrying a single empty item. -/
theorem create_neither_counterexample :
    create "posts" [] []
      = CreateOutcome.posts [⟨[], [("posts", JVal.arr [JVal.obj []])]⟩] ∧
    create "posts" [] [] ≠ CreateOutcome.usageError := by
  have h1 : create "posts" [] []
      = CreateOutcome.posts [⟨[], [("posts", JVal.arr [JVal.obj []])]⟩] := rfl
  refine ⟨h1, fun h => ?_⟩
  rw [h1] at h
  exact CreateOutcome.noConfusion h

/-- Claim C4 (amended): supplying both positional items and keyword fields
fails with the usage error before any request is issued (the outcome
carries no POST); supplying exactly one of the two forms proceeds and is
never rejected with the usage error (positional items are each POSTed
individually, keyword fields form one POSTed item); but a call supplying
neither form is NOT rejected either: it proceeds as a keyword-form create
of one empty item. -/
theorem create_mutual_exclusion (resource : String) (a : List Item) (kw : Item) :
    (a ≠ [] → kw ≠ [] → create resource a kw = CreateOutcome.usageError) ∧
    (∀ reqs, a ≠ [] → a.mapM (create_one resource) = Except.ok reqs →
      create resource a [] = CreateOutcome.posts reqs) ∧
    (a ≠ [] → create resource a [] ≠ CreateOutcome.usageError) ∧
    (∀ req, kw ≠ [] → create_one resource kw = Except.ok req →
      create resource [] kw = CreateOutcome.posts [req]) ∧
    (kw ≠ [] → create resource [] kw ≠ CreateOutcome.usageError) ∧
    create resource [] []
      = CreateOutcome.posts [⟨[], [(resource, JVal.arr [JVal.obj []])]⟩] := by
  refine ⟨?_, ?_, ?_, ?_, ?_, rfl⟩
  · intro ha hk
    cases a with
    | nil => exact absurd rfl ha
    | cons x xs =>
        cases kw with
        | nil => exact absurd rfl hk
        | cons y ys => rfl
  · intro reqs ha hmap
    cases a with
    | nil => exact absurd rfl ha
    | cons x xs =>
        have hstep : create resource (x :: xs) []
            = (match (x :: xs).mapM (create_one resource) with
               | Except.ok rs => CreateOutcome.posts rs
               | Except.error _ => CreateOutcome.notImplementedError) := rfl
        rw [hstep, hmap]
  · intro ha h
    cases a with
    | nil => exact absurd rfl ha
    | cons x xs =>
        have hstep : create resource (x :: xs) []
            = (match (x :: xs).mapM (create_one resource) with
               | Except.ok rs => CreateOutcome.posts rs
               | Except.error _ => CreateOutcome.notImplementedError) := rfl
        rw [hstep] at h
        cases hm : (x :: xs).mapM (create_one resource) with
        | ok rs => rw [hm] at h; exact CreateOutcome.noConfusion h
        | error e => rw [hm] at h; exact CreateOutcome.noConfusion h
  · intro req hk hone
    cases kw with
    | nil => exact absurd rfl hk
    | cons y ys =>
        have hstep : create resource [] (y :: ys)
            = (match create_one resource (y :: ys) with
               | Except.ok r => CreateOutcome.posts [r]
               | Except.error _ => CreateOutcome.notImplementedError) := rfl
        rw [hstep, hone]
  · intro hk h
    cases kw with
    | nil => exact absurd rfl hk
    | cons y ys =>
        have hstep : create resource [] (y :: ys)
            = (match create_one resource (y :: ys) with
               | Except.ok r => CreateOutcome.posts [r]
               | Except.error _ => CreateOutcome.notImplementedError) := rfl
        rw [hstep] at h
        cases hm : create_one resource (y :: ys) with
        | ok r => rw [hm] at h; exact CreateOutcome.noConfusion h
        | error e => rw [hm] at h; exact CreateOutcome.noConfusion h

/-- Witness for claim C4 (amended) at concrete arguments: both forms give
the usage error, each single form proceeds to its POST. -/
theorem create_mutual_exclusion_witness :
    create "posts" [[("title", JVal.str "T")]] [("slug", JVal.str "s")]
      = CreateOutcome.usageError ∧
    create "posts" [[("title", JVal.str "T")]] []
      = CreateOutcome.posts
          [⟨[], [("posts", JVal.arr [JVal.obj [("title", JVal.str "T")]])]⟩] ∧
    create "posts" [] [("slug", JVal.str "s")]
      = CreateOutcome.posts
          [⟨[], [("posts", JVal.arr [JVal.obj [("slug", JVal.str "s")]])]⟩] := by
  refine ⟨?_, ?_, ?_⟩
  · exact (create_mutual_exclusion "posts" [[("title", JVal.str "T")]]
      [("slug", JVal.str "s")]).1 (by simp) (by simp)
  · exact (create_mutual_exclusion "posts" [[("title", JVal.str "T")]] []).2.1
      [⟨[], [("posts", JVal.arr [JVal.obj [("title", JVal.str "T")]])]⟩]
      (by simp) rfl
  · exact (create_mutual_exclusion "posts" [] [("slug", JVal.str "s")]).2.2.2.1
      ⟨[], [("posts", JVal.arr [JVal.obj [("slug", JVal.str "s")]])]⟩
      (by simp) rfl

/-! ### Bulk update by filters (`GhostAdminResource._update_by_filters`
and `_update_by_id` in abs_resources.py) -/

/-- Previously fetched record as used by `_update_by_id`: its id and its
updated_at timestamp. -/
structure OldItem where
  id : String
  updated_at : String
deriving DecidableEq, Repr

/-- Mirrors the limit-forcing line shared by `_update_by_filters` and
`_delete_by_filters`: when the filters carry no truthy limit entry, limit
is set to the string all. -/
def forceLimitAll (filters : List (String × String)) : List (String × String) :=
  match getKey filters "limit" with
  | none => setKey filters "limit" "all"
  | some v => if v = "" then setKey filters "limit" "all" else filters

/-- One PUT request issued by `_update_by_id`: the id path and the item
body (the envelope around it is elided). -/
structure PutRequest where
  path : String
  body : List (String × String)
deriving DecidableEq, Repr

/-- Mirrors `GhostAdminResource._update_by_id` in the case where the old
record was supplied by the caller (as `_update_by_filters` always does):
the body's updated_at is set from the old record and the PUT goes to the
id path. -/
def update_by_id (data : List (String × String)) (old : OldItem) : PutRequest :=
  ⟨old.id, setKey data "updated_at" old.updated_at⟩

/-- Mirrors `GhostAdminResource._update_by_filters`: force limit to all
when absent, resolve matching items with fields id and updated_at, and PUT
each matched item individually, supplying that item's own updated_at; a
not-found during resolution yields the empty list. The first component is
the parameter mapping of the resolution GET, the second the issued PUTs. -/
def update_by_filters (resolve : List (String × String) → Except Unit (List OldItem))
    (data : List (String × String)) (filters : List (String × String)) :
    List (String × String) × List PutRequest :=
  let filters1 := forceLimitAll filters
  let params := setKey filters1 "fields" (list_join ["id", "updated_at"] Paren.nothing)
  match resolve params with
  | Except.error _ => (params, [])
  | Except.ok olds => (params, olds.map fun old => update_by_id data old)

/-- Claim C5: an update without id whose filters (carrying no limit of
their own) match the returned items forces limit to all on the resolution
GET and issues exactly one PUT per matched item, each carrying that item's
own previously fetched updated_at. -/
theorem update_by_filters_per_item
    (resolve : List (String × String) → Except Unit (List OldItem))
    (data filters : List (String × String)) (olds : List OldItem)
    (hlim : getKey filters "limit" = none)
    (hres : resolve (setKey (setKey filters "limit" "all") "fields" "id,updated_at")
      = Except.ok olds) :
    getKey (update_by_filters resolve data filters).1 "limit" = some "all" ∧
    (update_by_filters resolve data filters).2.length = olds.length ∧
    (update_by_filters resolve data filters).2
      = olds.map fun old => PutRequest.mk old.id (setKey data "updated_at" old.updated_at) := by
  have hforce : forceLimitAll filters = setKey filters "limit" "all" := by
    rw [forceLimitAll, hlim]
  have hjoin : list_join ["id", "updated_at"] Paren.nothing = "id,updated_at" := rfl
  have hrun : update_by_filters resolve data filters
      = (setKey (setKey filters "limit" "all") "fields" "id,updated_at",
         olds.map fun old => update_by_id data old) := by
    rw [update_by_filters]
    rw [hforce, hjoin, hres]
  rw [hrun]
  refine ⟨?_, by simp, rfl⟩
  rw [getKey_setKey_ne _ _ _ _ (by decide), getKey_setKey_self]

/-- Witness for claim C5: two matched draft items give exactly two PUTs,
each carrying its own updated_at. -/
theorem update_by_filters_per_item_witness :
    getKey (update_by_filters (fun _ => Except.ok [⟨"id1", "t1"⟩, ⟨"id2", "t2"⟩])
      [("title", "T")] [("status", "draft")]).1 "limit" = some "all" ∧
    (update_by_filters (fun _ => Except.ok [⟨"id1", "t1"⟩, ⟨"id2", "t2"⟩])
      [("title", "T")] [("status", "draft")]).2
      = [⟨"id1", [("title", "T"), ("updated_at", "t1")]⟩,
         ⟨"id2", [("title", "T"), ("updated_at", "t2")]⟩] := by
  have h := update_by_filters_per_item
    (fun _ => Except.ok [⟨"id1", "t1"⟩, ⟨"id2", "t2"⟩])
    [("title", "T")] [("status", "draft")] [⟨"id1", "t1"⟩, ⟨"id2", "t2"⟩]
    rfl rfl
  exact ⟨h.1, h.2.2.trans rfl⟩

/-! ### ResultSet pagination cursor (`GhostResultSet.next` in results.py) -/

/-- Parameter value in a stored request: Python str, int, or None. -/
inductive PVal where
  | s : String → PVal
  | n : Nat → PVal
  | null : PVal
deriving DecidableEq, Repr

/-- Python truthiness of a parameter value. -/
def pvalTruthy : PVal → Bool
  | .null => false
  | .n v => v != 0
  | .s v => !v.isEmpty

/-- Request stored in a ResultSet's metadata: path, query params and the
single flag, enough to regenerate the identical query. -/
structure RSRequest where
  path : String
  params : List (String × PVal)
  single : Bool
deriving DecidableEq, Repr

/-- Pagination block of a ResultSet's metadata as reported by the server. -/
structure RSPagination where
  page : Nat
  limit : Nat
  next : Option Nat
deriving DecidableEq, Repr

/-- Metadata carried by a ResultSet. -/
structure RSMeta where
  pagination : RSPagination
  request : RSRequest
deriving DecidableEq, Repr

/-- Mirrors `GhostResultSet.next`: limit is pinned to the server-reported
page limit, page is set to the pagination's next page; when that page
value is falsy (absent next page) the empty sequence is returned and no
request is issued (result none); otherwise the stored request is re-issued
with the adjusted params (result some). -/
def rs_next (meta : RSMeta) : Option RSRequest :=
  let pag := meta.pagination
  let request := meta.request
  let params := setKey request.params "limit" (PVal.n pag.limit)
  let params := setKey params "page"
    (match pag.next with | some p => PVal.n p | none => PVal.null)
  if pvalTruthy ((getKey params "page").getD PVal.null) then
    some ⟨request.path, params, request.single⟩
  else
    none

/-- Claim C6: with no next page the cursor returns the empty sequence
without issuing a request; with a next page it re-issues the original
request with the same path, single flag and filter params, the page param
advanced to the next page number and the limit param pinned to the
server-reported limit. -/
theorem rs_next_continuation (meta : RSMeta) :
    (meta.pagination.next = none → rs_next meta = none) ∧
    (∀ p, meta.pagination.next = some p → 0 < p →
      ∃ req, rs_next meta = some req ∧
        req.path = meta.request.path ∧
        req.single = meta.request.single ∧
        getKey req.params "page" = some (PVal.n p) ∧
        getKey req.params "limit" = some (PVal.n meta.pagination.limit) ∧
        ∀ k, k ≠ "page" → k ≠ "limit" →
          getKey req.params k = getKey meta.request.params k) := by
  constructor
  · intro hnone
    rw [rs_next, hnone]
    simp [getKey_setKey_self, pvalTruthy]
  · intro p hnext hp
    rw [rs_next, hnext]
    have hpage : getKey (setKey (setKey meta.request.params "limit"
        (PVal.n meta.pagination.limit)) "page" (PVal.n p)) "page" = some (PVal.n p) :=
      getKey_setKey_self _ _ _
    have htruthy : pvalTruthy ((getKey (setKey (setKey meta.request.params "limit"
        (PVal.n meta.pagination.limit)) "page" (PVal.n p)) "page").getD PVal.null) = true := by
      rw [hpage]
      simpa [pvalTruthy] using Nat.pos_iff_ne_zero.mp hp
    rw [if_pos htruthy]
    refine ⟨_, rfl, rfl, rfl, hpage, ?_, ?_⟩
    · rw [getKey_setKey_ne _ _ _ _ (by decide), getKey_setKey_self]
    · intro k hk1 hk2
      rw [getKey_setKey_ne _ _ _ _ hk1, getKey_setKey_ne _ _ _ _ hk2]

/-- Witness for claim C6: a concrete metadata block with and without a
next page. -/
theorem rs_next_continuation_witness :
    rs_next ⟨⟨3, 5, none⟩, ⟨"", [("filter", PVal.s "tag:even")], false⟩⟩ = none ∧
    ∃ req, rs_next ⟨⟨1, 5, some 2⟩, ⟨"", [("filter", PVal.s "tag:even")], false⟩⟩
        = some req ∧
      getKey req.params "page" = some (PVal.n 2) ∧
      getKey req.params "limit" = some (PVal.n 5) ∧
      getKey req.params "filter" = some (PVal.s "tag:even") := by
  constructor
  · exact (rs_next_continuation ⟨⟨3, 5, none⟩,
      ⟨"", [("filter", PVal.s "tag:even")], false⟩⟩).1 rfl
  · obtain ⟨req, hreq, _, _, hpage, hlimit, hother⟩ :=
      (rs_next_continuation ⟨⟨1, 5, some 2⟩,
        ⟨"", [("filter", PVal.s "tag:even")], false⟩⟩).2 2 rfl (by decide)
    exact ⟨req, hreq, hpage, hlimit, (hother "filter" (by decide) (by decide)).trans rfl⟩

/-! ### ResultSet union (`GhostResultSet.__or__` in results.py) -/

/-- ResultSet as needed for the set-union operation: the wrapped items,
the identity of the owning Resource object, and the metadata. -/
structure RSet (α : Type) where
  items : List α
  resource : Nat
  meta : RSMeta

/-- Mirrors `GhostResultSet.__or__`: a TypeError (error) when the two sets
belong to different Resources, otherwise a new set holding the left set's
items followed by the right set's, keeping the left set's metadata. -/
def rset_or {α : Type} (s o : RSet α) : Except Unit (RSet α) :=
  if s.resource != o.resource then
    Except.error ()
  else
    Except.ok ⟨s.items ++ o.items, s.resource, s.meta⟩

/-- Claim C8: the union of two ResultSets of the same Resource holding a
and b items is a new ResultSet of exactly a + b items, the left items
followed by the right items; the union across different Resources raises
a TypeError. -/
theorem rset_or_union {α : Type} (s o : RSet α) :
    (s.resource = o.resource →
      rset_or s o = Except.ok ⟨s.items ++ o.items, s.resource, s.meta⟩ ∧
      (s.items ++ o.items).length = s.items.length + o.items.length) ∧
    (s.resource ≠ o.resource → rset_or s o = Except.error ()) := by
  constructor
  · intro h
    refine ⟨?_, by simp⟩
    rw [rset_or, if_neg (by simp [h])]
  · intro h
    rw [rset_or, if_pos (by simpa using h)]

/-- Witness for claim C8 at concrete sets: two sets of the same resource
with two and one items unite into three items; sets of different
resources fail. -/
theorem rset_or_union_witness :
    rset_or (RSet.mk ["p1", "p2"] 0 ⟨⟨1, 2, none⟩, ⟨"", [], false⟩⟩)
        (RSet.mk ["p3"] 0 ⟨⟨1, 1, none⟩, ⟨"", [], false⟩⟩)
      = Except.ok ⟨["p1", "p2", "p3"], 0, ⟨⟨1, 2, none⟩, ⟨"", [], false⟩⟩⟩ ∧
    (2 + 1 = 3) ∧
    rset_or (RSet.mk ["p1", "p2"] 0 ⟨⟨1, 2, none⟩, ⟨"", [], false⟩⟩)
        (RSet.mk ["g1"] 1 ⟨⟨1, 1, none⟩, ⟨"", [], false⟩⟩)
      = Except.error () := by
  refine ⟨?_, rfl, ?_⟩
  · have h := ((rset_or_union (RSet.mk ["p1", "p2"] 0 ⟨⟨1, 2, none⟩, ⟨"", [], false⟩⟩)
      (RSet.mk ["p3"] 0 ⟨⟨1, 1, none⟩, ⟨"", [], false⟩⟩)).1 rfl).1
    exact h
  · exact (rset_or_union _ _).2 (by decide)

/-! ### Pagination generator (`GhostResource.paginate` in abs_resources.py) -/

/-- Mirrors `GhostResource.paginate` run against a backend holding the
list L of items matching the supplied filters: the page numbered
pageIdx + 1 holds the slice of L starting at position pageIdx * per of
length per (the Python loop counts pages from 1; pageIdx is that page
counter minus one). The nf flag selects whether the backend signals
not-found for a page past the data (raised and caught by paginate,
breaking the loop) or returns an empty page (which ends the loop through
its while condition). Returns the items yielded in order together with
the 1-based page numbers requested with limit per. -/
def paginate {α : Type} (L : List α) (per : Nat) (nf : Bool) (pageIdx : Nat) :
    List α × List Nat :=
  if nf && ((L.drop (pageIdx * per)).take per).isEmpty then
    ([], [pageIdx + 1])
  else if hs : ((L.drop (pageIdx * per)).take per).isEmpty then
    ([], [pageIdx + 1])
  else
    let r := paginate L per nf (pageIdx + 1)
    ((L.drop (pageIdx * per)).take per ++ r.1, (pageIdx + 1) :: r.2)
termination_by L.length - pageIdx * per
decreasing_by
  have hper : per ≠ 0 := by
    intro h
    simp [h] at hs
  have hlt : pageIdx * per < L.length := by
    by_contra hge
    have hnil : L.drop (pageIdx * per) = [] :=
      List.drop_eq_nil_of_le (Nat.le_of_not_lt hge)
    simp [hnil] at hs
  have hmul : (pageIdx + 1) * per = pageIdx * per + per := by ring
  omega

theorem paginate_of_empty {α : Type} (L : List α) (per : Nat) (nf : Bool)
    (pageIdx : Nat) (h : ((L.drop (pageIdx * per)).take per).isEmpty = true) :
    paginate L per nf pageIdx = ([], [pageIdx + 1]) := by
  rw [paginate]
  cases nf <;> simp [h]

theorem ceil_div_step (per M : Nat) (hper : 0 < per) (hM : 0 < M) :
    (M + per - 1) / per = ((M - per) + per - 1) / per + 1 := by
  rcases le_or_lt M per with h | h
  · have h1 : M - per = 0 := by omega
    have h2 : M + per - 1 = (M - 1) + per := by omega
    have h3 : (M - 1) / per = 0 := Nat.div_eq_of_lt (by omega)
    have h4 : (per - 1) / per = 0 := Nat.div_eq_of_lt (by omega)
    rw [h1, h2, Nat.add_div_right _ hper, h3]
    simp [h4]
  · have h1 : (M - per) + per - 1 = M - 1 := by omega
    have h2 : M + per - 1 = (M - 1) + per := by omega
    rw [h1, h2, Nat.add_div_right _ hper]

theorem paginate_spec {α : Type} (per : Nat) (hper : 0 < per) (nf : Bool) :
    ∀ fuel (L : List α) (pageIdx : Nat), L.length - pageIdx * per ≤ fuel →
      (paginate L per nf pageIdx).1 = L.drop (pageIdx * per) ∧
      (paginate L per nf pageIdx).2
        = List.range' (pageIdx + 1)
            (((L.length - pageIdx * per) + per - 1) / per + 1) := by
  intro fuel
  induction fuel with
  | zero =>
      intro L pageIdx hle
      have hnil : L.drop (pageIdx * per) = [] :=
        List.drop_eq_nil_of_le (by omega)
      have hempty : ((L.drop (pageIdx * per)).take per).isEmpty = true := by
        simp [hnil]
      rw [paginate_of_empty L per nf pageIdx hempty, hnil]
      have hM : L.length - pageIdx * per = 0 := by omega
      have hdiv : (per - 1) / per = 0 := Nat.div_eq_of_lt (by omega)
      rw [hM]
      simp [hdiv]
  | succ m ih =>
      intro L pageIdx hle
      by_cases hempty : ((L.drop (pageIdx * per)).take per).isEmpty = true
      · have hnil : L.drop (pageIdx * per) = [] :=
          (List.take_eq_nil_iff.mp (List.isEmpty_iff.mp hempty)).resolve_left
            (Nat.pos_iff_ne_zero.mp hper)
        have hM : L.length - pageIdx * per = 0 := by
          have := List.drop_eq_nil_iff.mp hnil
          omega
        rw [paginate_of_empty L per nf pageIdx hempty, hnil, hM]
        have hdiv : (per - 1) / per = 0 := Nat.div_eq_of_lt (by omega)
        simp [hdiv]
      · have hlt : pageIdx * per < L.length := by
          by_contra hge
          have hnil : L.drop (pageIdx * per) = [] :=
            List.drop_eq_nil_of_le (Nat.le_of_not_lt hge)
          simp [hnil] at hempty
        have hmul : (pageIdx + 1) * per = pageIdx * per + per := by ring
        have hrec := ih L (pageIdx + 1) (by omega)
        have hrun : paginate L per nf pageIdx
            = ((L.drop (pageIdx * per)).take per ++ (paginate L per nf (pageIdx + 1)).1,
               (pageIdx + 1) :: (paginate L per nf (pageIdx + 1)).2) := by
          rw [paginate]
          simp [hempty]
        constructor
        · rw [hrun]
          simp only []
          rw [hrec.1, hmul]
          exact List.drop_take_append_drop L (pageIdx * per) per
        · rw [hrun]
          simp only []
          rw [hrec.2, hmul]
          have hMpos : 0 < L.length - pageIdx * per := by omega
          have hsub : L.length - (pageIdx * per + per)
              = (L.length - pageIdx * per) - per := by omega
          rw [hsub, ceil_div_step per (L.length - pageIdx * per) hper hMpos]
          rw [List.range'_succ (pageIdx + 1)
            (((L.length - pageIdx * per - per) + per - 1) / per + 1) 1]
/-- Claim C7: over a backend holding the N items matching the supplied
filters, with page size per, paginate requests pages 1, 2, 3, ... (each
with limit per and the same filters, here fixed as the backend list L) and
yields exactly the N items in order, no duplicates and no gaps, across
ceil(N/per) data pages; it terminates right after the first fetch past
the data (the page that comes back empty or signals not-found), for a
total of ceil(N/per) + 1 page fetches. -/
theorem paginate_exhaustive {α : Type} (L : List α) (per : Nat) (nf : Bool)
    (hper : 0 < per) :
    (paginate L per nf 0).1 = L ∧
    (paginate L per nf 0).2 = List.range' 1 ((L.length + per - 1) / per + 1) := by
  have h := paginate_spec per hper nf L.length L 0 (by omega)
  simpa using h

/-- Witness for claim C7: thirteen items at five per page are yielded in
full over three data pages, with the terminating fourth fetch. -/
theorem paginate_exhaustive_witness :
    (paginate (List.range 13) 5 false 0).1 = List.range 13 ∧
    (paginate (List.range 13) 5 false 0).2 = [1, 2, 3, 4] := by
  have h := paginate_exhaustive (List.range 13) 5 false (by decide)
  exact ⟨h.1, h.2.trans (by decide)⟩

/-! ### Error propagation (`GhostClient.GET`, `GhostClient._handle_errors`,
`GhostAdmin.DELETE` in client.py; `GhostAdminResource._delete_by_filters`
in abs_resources.py) -/

/-- One entry of the errors array of an error response body. -/
structure GhostErr where
  etype : String
  message : String
deriving DecidableEq, Repr

/-- Body of an HTTP response as inspected by `_handle_errors`: either not
parseable as JSON, or JSON without an errors array (none / an absent or
falsy errors key), or JSON with a list under the errors key. -/
inductive RespBody where
  | invalidJson : RespBody
  | json : Option (List GhostErr) → RespBody
deriving DecidableEq, Repr

/-- HTTP response: status code and body. -/
structure Resp where
  status : Nat
  body : RespBody
deriving DecidableEq, Repr

/-- Success flag of the response object: status below 400. -/
def respOk (r : Resp) : Bool := r.status < 400

/-- Exception kinds raised by the client layer. -/
inductive GhostExc where
  | responseExc : Nat → String → String → GhostExc
  | unknownExc : Nat → GhostExc
  | jsonExc : Nat → GhostExc
deriving DecidableEq, Repr

/-- Mirrors `GhostClient._handle_errors`: a body that fails JSON parsing
raises the JSON exception; a JSON body with no (or an empty) errors array
raises the unknown exception; otherwise the first error entry and the
status are surfaced in the response exception. -/
def handle_errors (r : Resp) : GhostExc :=
  match r.body with
  | RespBody.invalidJson => GhostExc.jsonExc r.status
  | RespBody.json none => GhostExc.unknownExc r.status
  | RespBody.json (some []) => GhostExc.unknownExc r.status
  | RespBody.json (some (e :: _)) => GhostExc.responseExc r.status e.etype e.message

/-- Mirrors `GhostClient.GET`: an error response goes through
`_handle_errors` and surfaces the raised exception to the caller; a
successful response returns its JSON body. -/
def clientGET (r : Resp) : Except GhostExc RespBody :=
  if respOk r then Except.ok r.body else Except.error (handle_errors r)

/-- Mirrors `GhostAdmin.POST`: like `GET`, an error response goes through
`_handle_errors` and the raised exception surfaces to the caller; a
successful response returns its JSON body. -/
def adminPOST (r : Resp) : Except GhostExc RespBody :=
  if respOk r then Except.ok r.body else Except.error (handle_errors r)

/-- Mirrors `GhostAdmin.PUT`: like `GET` and `POST`, an error response
goes through `_handle_errors` and the raised exception surfaces to the
caller; a successful response returns its JSON body. -/
def adminPUT (r : Resp) : Except GhostExc RespBody :=
  if respOk r then Except.ok r.body else Except.error (handle_errors r)

/-- Mirrors `GhostAdmin.DELETE`: the response (whatever its status) is
mapped to the boolean comparison of the status with 204; no exception is
ever raised over the response. -/
def adminDELETE (r : Resp) : Bool := r.status == 204

/-- Mirrors `GhostAdminResource.delete` without id, followed by
`_delete_by_filters`: fields is narrowed to id, a missing limit forces
limit all, matches are resolved and deleted one by one; a not-found during
resolution (or an empty resolution) yields the empty list rather than an
error. -/
def delete_by_filters (resolve : List (String × String) → Except Unit (List OldItem))
    (delete_one : String → Bool) (filters : List (String × String)) : List Bool :=
  let filters1 := setKey filters "fields" "id"
  let filters2 := forceLimitAll filters1
  match resolve filters2 with
  | Except.error _ => []
  | Except.ok ids => if ids.isEmpty then [] else ids.map fun i => delete_one i.id

/-- Counterexample to claim C9 as stated: the same platform error response
that `GET` surfaces as a raised exception is, when met by the admin
`DELETE`, silently mapped to the boolean false — a third swallowing site
beyond the two the claim allows (paginate and bulk resolution). -/
theorem delete_swallows_counterexample :
    clientGET ⟨404, RespBody.json (some [⟨"NotFoundError", "Resource not found"⟩])⟩
      = Except.error (GhostExc.responseExc 404 "NotFoundError" "Resource not found") ∧
    adminDELETE ⟨404, RespBody.json (some [⟨"NotFoundError", "Resource not found"⟩])⟩
      = false :=
  ⟨rfl, rfl⟩

/-- Claim C9 (amended): every error met by GET, POST or PUT surfaces to
the immediate caller as the exception raised by `_handle_errors`;
not-found during paginate ends the sequence and not-found during bulk
delete/update resolution yields an empty list; but additionally the admin
DELETE maps every response to the boolean comparison of its status with
204, so its error responses are reported as false rather than surfacing. -/
theorem error_propagation :
    (∀ r : Resp, respOk r = false → clientGET r = Except.error (handle_errors r)) ∧
    (∀ r : Resp, respOk r = false → adminPOST r = Except.error (handle_errors r)) ∧
    (∀ r : Resp, respOk r = false → adminPUT r = Except.error (handle_errors r)) ∧
    (∀ r : Resp, adminDELETE r = (r.status == 204)) ∧
    (∀ del f, delete_by_filters (fun _ => Except.error ()) del f = []) ∧
    (∀ data f, (update_by_filters (fun _ => Except.error ()) data f).2 = []) ∧
    (∀ (L : List Nat) per, 0 < per → (paginate L per true 0).1 = L) := by
  refine ⟨?_, ?_, ?_, fun _ => rfl, fun _ _ => rfl, fun _ _ => rfl, ?_⟩
  · intro r hr
    rw [clientGET, hr]
    rfl
  · intro r hr
    rw [adminPOST, hr]
    rfl
  · intro r hr
    rw [adminPUT, hr]
    rfl
  · intro L per hper
    exact (paginate_spec per hper true L.length L 0 (by omega)).1.trans (by simp)

/-- Witness for claim C9 (amended) at a concrete error response (surfaced
alike by GET, POST and PUT) and a concrete two-item backend. -/
theorem error_propagation_witness :
    clientGET ⟨422, RespBody.json (some [⟨"ValidationError", "bad"⟩])⟩
      = Except.error (GhostExc.responseExc 422 "ValidationError" "bad") ∧
    adminPOST ⟨422, RespBody.json (some [⟨"ValidationError", "bad"⟩])⟩
      = Except.error (GhostExc.responseExc 422 "ValidationError" "bad") ∧
    adminPUT ⟨422, RespBody.json (some [⟨"ValidationError", "bad"⟩])⟩
      = Except.error (GhostExc.responseExc 422 "ValidationError" "bad") ∧
    (paginate [10, 20] 1 true 0).1 = [10, 20] := by
  refine ⟨?_, ?_, ?_, ?_⟩
  · exact (error_propagation.1 ⟨422, RespBody.json (some [⟨"ValidationError", "bad"⟩])⟩
      rfl).trans rfl
  · exact (error_propagation.2.1 ⟨422, RespBody.json (some [⟨"ValidationError", "bad"⟩])⟩
      rfl).trans rfl
  · exact (error_propagation.2.2.1 ⟨422, RespBody.json (some [⟨"ValidationError", "bad"⟩])⟩
      rfl).trans rfl
  · exact error_propagation.2.2.2.2.2.2 [10, 20] 1 (by decide)

/-! ### Result construction (`GhostResult.__init__` in results.py) -/

/-- Python dict comprehension semantics: build a dict by inserting the
pairs left to right, a later duplicate key overwriting in place. -/
def pyDictOfPairs (pairs : List (String × JVal)) : List (String × JVal) :=
  pairs.foldl (fun acc kv => setKey acc kv.1 kv.2) []

/-- Key/value contributed by one element of the tags list: the element's
slug entry as key and the tag object itself as value; none when the
element is not an object carrying a string slug (in Python that lookup
raises). -/
def tagPair (t : JVal) : Option (String × JVal) :=
  match t with
  | JVal.obj m =>
      match getKey m "slug" with
      | some (JVal.str s) => some (s, t)
      | _ => none
  | _ => none

/-- Mirrors `GhostResult.__init__`: when the record carries a truthy list
under tags (that is, a non-empty list), the field is replaced by the
mapping from each tag's slug to the tag object; any other record is kept
unchanged. The error case models the KeyError Python raises for a tag
without a slug. -/
def ghostResult_init (d : List (String × JVal)) : Except Unit (List (String × JVal)) :=
  match getKey d "tags" with
  | some (JVal.arr (t :: ts)) =>
      match (t :: ts).mapM tagPair with
      | some prs => Except.ok (setKey d "tags" (JVal.obj (pyDictOfPairs prs)))
      | none => Except.error ()
  | _ => Except.ok d

theorem mapM_some_of_forall {α β : Type} (f : α → Option β) (g : α → β) :
    ∀ l : List α, (∀ a ∈ l, f a = some (g a)) → l.mapM f = some (l.map g) := by
  intro l
  induction l with
  | nil => intro _; rfl
  | cons x xs ih =>
      intro h
      have hx := h x (by simp)
      have hxs := ih fun a ha => h a (by simp [ha])
      rw [List.mapM_cons, hx, hxs]
      rfl

/-- Claim C10: a record whose tags field is a non-empty list (of tag
objects carrying slugs) has that field replaced by the slug-keyed mapping
to the tag objects, so subsequent access to tags yields that mapping;
records without a non-empty list-valued tags field are wrapped unchanged. -/
theorem ghostResult_init_tags (d : List (String × JVal)) :
    (∀ (tags : List JVal) (slugOf : JVal → String),
      getKey d "tags" = some (JVal.arr tags) → tags ≠ [] →
      (∀ t ∈ tags, tagPair t = some (slugOf t, t)) →
      ghostResult_init d
        = Except.ok (setKey d "tags"
            (JVal.obj (pyDictOfPairs (tags.map fun t => (slugOf t, t))))) ∧
      getKey (setKey d "tags"
          (JVal.obj (pyDictOfPairs (tags.map fun t => (slugOf t, t))))) "tags"
        = some (JVal.obj (pyDictOfPairs (tags.map fun t => (slugOf t, t))))) ∧
    (getKey d "tags" = none → ghostResult_init d = Except.ok d) ∧
    (getKey d "tags" = some (JVal.arr []) → ghostResult_init d = Except.ok d) ∧
    (∀ v, getKey d "tags" = some v → (∀ l, v ≠ JVal.arr l) →
      ghostResult_init d = Except.ok d) := by
  refine ⟨?_, ?_, ?_, ?_⟩
  · intro tags slugOf htags hne hall
    cases tags with
    | nil => exact absurd rfl hne
    | cons t ts =>
        have hmap := mapM_some_of_forall tagPair (fun t => (slugOf t, t)) (t :: ts) hall
        have hstep : ghostResult_init d
            = (match (t :: ts).mapM tagPair with
               | some prs => Except.ok (setKey d "tags" (JVal.obj (pyDictOfPairs prs)))
               | none => Except.error ()) := by
          rw [ghostResult_init, htags]
        rw [hstep, hmap]
        exact ⟨rfl, getKey_setKey_self _ _ _⟩
  · intro h
    rw [ghostResult_init, h]
  · intro h
    rw [ghostResult_init, h]
  · intro v hv hnarr
    rw [ghostResult_init, hv]
    cases v with
    | arr l => exact absurd rfl (hnarr l)
    | null => rfl
    | str s => rfl
    | num n => rfl
    | bool b => rfl
    | obj m => rfl

/-- Witness for claim C10: a record with two tag objects gets its tags
field replaced by the slug-keyed mapping; a record with a string tags
field is kept unchanged. -/
theorem ghostResult_init_tags_witness :
    ghostResult_init [("title", JVal.str "T"),
        ("tags", JVal.arr [JVal.obj [("slug", JVal.str "a")],
                           JVal.obj [("slug", JVal.str "b")]])]
      = Except.ok [("title", JVal.str "T"),
        ("tags", JVal.obj [("a", JVal.obj [("slug", JVal.str "a")]),
                           ("b", JVal.obj [("slug", JVal.str "b")])])] ∧
    ghostResult_init [("tags", JVal.str "not-a-list")]
      = Except.ok [("tags", JVal.str "not-a-list")] := by
  constructor
  · have h := (ghostResult_init_tags [("title", JVal.str "T"),
        ("tags", JVal.arr [JVal.obj [("slug", JVal.str "a")],
                           JVal.obj [("slug", JVal.str "b")]])]).1
      [JVal.obj [("slug", JVal.str "a")], JVal.obj [("slug", JVal.str "b")]]
      (fun t => ((tagPair t).getD ("", JVal.null)).1)
      rfl (by simp)
      (by
        intro t ht
        rcases List.mem_cons.mp ht with h1 | h1
        · subst h1; rfl
        · rcases List.mem_cons.mp h1 with h2 | h2
          · subst h2; rfl
          · simp at h2)
    exact h.1
  · exact (ghostResult_init_tags [("tags", JVal.str "not-a-list")]).2.2.2
      (JVal.str "not-a-list") rfl (fun l h => JVal.noConfusion h)

end Ghost
